import Mathlib

/-!
Verification development for the perceptor scan-orchestration engine.

Shallow embedding of the Go sources:
- `pkg/hub/hub.go` (the Hub actor: timers, client status, error ring,
  action dispatch, stop channel);
- `pkg/core/hubmanager.go` (the HubManager: SetHubs reconciliation and
  per-URL routing of StartScanClient / FinishScanClient);
- the Perceptor coordinator file (constants, stalled-scan detector body,
  completion-polling loop body, construction wiring).

Machinery the sources delegate to but whose code is not part of this
development (util.Timer, the PerceptorConfig struct read by NewPerceptor)
is modelled from the specification and marked as such in doc comments.
-/

/-- Client status of a hub, from hub.go (`ClientStatusDown`, `ClientStatusUp`);
a new hub starts `Down`. -/
inductive ClientStatus where
  | Down
  | Up
deriving DecidableEq, Repr

/-- Errors a timer pause/resume call can return.
Modelled from the spec: util.Timer returns errors on pause/resume misuse
(for example pause when already paused), which callers record. -/
inductive TimerErr where
  | alreadyPaused
  | alreadyRunning
deriving DecidableEq, Repr

/-- Errors recorded in a hub's error ring: login failures (identified by a
code standing for the Go error value) and timer pause/resume errors. -/
inductive HErr where
  | loginFailure (code : Nat)
  | timerErr (e : TimerErr)
deriving DecidableEq, Repr

/-- State of one util.Timer as the Hub observes it.
Modelled from the spec: a named periodic ticker with pause/resume and an
immediate-fire option on resume; `running` is whether it is scheduled,
`immediateFires` counts the fires triggered by `Resume(true)`. -/
structure Timer where
  running : Bool
  immediateFires : Nat
deriving DecidableEq, Repr

/-- Pause a timer.  Modelled from the spec: `Pause()` halts scheduling and
returns an error when the timer is already paused. -/
def Timer.pause (t : Timer) : Timer × Option TimerErr :=
  if t.running then ({ t with running := false }, none)
  else (t, some TimerErr.alreadyPaused)

/-- Resume a timer.  Modelled from the spec: `Resume(runImmediately)`
restarts scheduling, optionally firing once at once, and returns an error
when the timer is already running. -/
def Timer.resume (t : Timer) (runImmediately : Bool) : Timer × Option TimerErr :=
  if t.running then (t, some TimerErr.alreadyRunning)
  else ({ running := true,
          immediateFires := t.immediateFires + (if runImmediately then 1 else 0) }, none)

/-- A call the Hub forwards directly to its Model (hub.go lines 210-217:
`hub.model.StartScanClient(scanName)`, `hub.model.FinishScanClient(scanName, scanErr)`). -/
inductive ModelCall where
  | startScanClient (scanName : String)
  | finishScanClient (scanName : String) (scanErr : Option Nat)
deriving DecidableEq, Repr

/-- The Hub actor's state, from the `Hub` struct in hub.go: client status,
error ring, the six timers, the stop channel (`stopClosed` is whether
`close(hub.stop)` has happened), the contents of the `actions` channel
(`pendingActions`, by action name), and the calls delegated directly to
`hub.model` (`modelCalls`). -/
structure Hub where
  status : ClientStatus
  errors : List HErr
  getMetricsTimer : Timer
  loginTimer : Timer
  refreshScansTimer : Timer
  fetchAllScansTimer : Timer
  fetchScansTimer : Timer
  checkScansForCompletionTimer : Timer
  stopClosed : Bool
  pendingActions : List String
  modelCalls : List ModelCall
deriving DecidableEq, Repr

/-- The error-ring update of hub.go `recordError`: append a non-nil error,
then drop the first 500 entries whenever the ring holds more than 1000. -/
def recordErrorL (err : Option HErr) (errors : List HErr) : List HErr :=
  let errors1 := match err with
    | some e => errors ++ [e]
    | none => errors
  if errors1.length > 1000 then errors1.drop 500 else errors1

/-- hub.go `recordError` as a state update on the Hub. -/
def Hub.recordError (h : Hub) (err : Option HErr) : Hub :=
  { h with errors := recordErrorL err h.errors }

/-- The hub state `NewHub` constructs (hub.go lines 66-100): status Down,
empty error ring, open stop channel, empty action channel; getMetrics and
login timers are created with `NewRunningTimer` (scheduled from the start),
the four data timers with `NewTimer` (paused until resumed; initial timer
states modelled from the spec's initial-state flag for util.Timer). -/
def NewHub : Hub :=
  { status := ClientStatus.Down
    errors := []
    getMetricsTimer := { running := true, immediateFires := 0 }
    loginTimer := { running := true, immediateFires := 0 }
    refreshScansTimer := { running := false, immediateFires := 0 }
    fetchAllScansTimer := { running := false, immediateFires := 0 }
    fetchScansTimer := { running := false, immediateFires := 0 }
    checkScansForCompletionTimer := { running := false, immediateFires := 0 }
    stopClosed := false
    pendingActions := []
    modelCalls := [] }

/-- hub.go `StartScanClient`: calls `hub.model.StartScanClient(scanName)`
directly; nothing is sent on the hub's `actions` channel. -/
def Hub.StartScanClient (h : Hub) (scanName : String) : Hub :=
  { h with modelCalls := h.modelCalls ++ [ModelCall.startScanClient scanName] }

/-- hub.go `FinishScanClient`: calls `hub.model.FinishScanClient(scanName, scanErr)`
directly; nothing is sent on the hub's `actions` channel. -/
def Hub.FinishScanClient (h : Hub) (scanName : String) (scanErr : Option Nat) : Hub :=
  { h with modelCalls := h.modelCalls ++ [ModelCall.finishScanClient scanName scanErr] }

/-- hub.go `Model`: sends the `"getModel"` action message on the hub's
`actions` channel (the reply channel itself carries no state here). -/
def Hub.Model (h : Hub) : Hub :=
  { h with pendingActions := h.pendingActions ++ ["getModel"] }

/-- The body of the `"didLogin"` clientAction that hub.go `didLogin` sends on
the actions channel: record the login error; on a failure while Up, go Down
and pause the four data timers; on a success while Down, go Up and resume
them with an immediate fire; every timer error is recorded in the ring. -/
def didLogin (err : Option Nat) (h0 : Hub) : Hub :=
  let h := h0.recordError (err.map HErr.loginFailure)
  if err ≠ none ∧ h.status = ClientStatus.Up then
    let h := { h with status := ClientStatus.Down }
    let p1 := h.checkScansForCompletionTimer.pause
    let h := Hub.recordError { h with checkScansForCompletionTimer := p1.1 } (p1.2.map HErr.timerErr)
    let p2 := h.fetchScansTimer.pause
    let h := Hub.recordError { h with fetchScansTimer := p2.1 } (p2.2.map HErr.timerErr)
    let p3 := h.fetchAllScansTimer.pause
    let h := Hub.recordError { h with fetchAllScansTimer := p3.1 } (p3.2.map HErr.timerErr)
    let p4 := h.refreshScansTimer.pause
    Hub.recordError { h with refreshScansTimer := p4.1 } (p4.2.map HErr.timerErr)
  else if err = none ∧ h.status = ClientStatus.Down then
    let h := { h with status := ClientStatus.Up }
    let r1 := h.checkScansForCompletionTimer.resume true
    let h := Hub.recordError { h with checkScansForCompletionTimer := r1.1 } (r1.2.map HErr.timerErr)
    let r2 := h.fetchScansTimer.resume true
    let h := Hub.recordError { h with fetchScansTimer := r2.1 } (r2.2.map HErr.timerErr)
    let r3 := h.fetchAllScansTimer.resume true
    let h := Hub.recordError { h with fetchAllScansTimer := r3.1 } (r3.2.map HErr.timerErr)
    let r4 := h.refreshScansTimer.resume true
    Hub.recordError { h with refreshScansTimer := r4.1 } (r4.2.map HErr.timerErr)
  else
    h

/-- A Go runtime panic reachable from the embedded code. -/
inductive GoPanic where
  | closeOfClosedChannel
deriving DecidableEq, Repr

/-- hub.go `Stop`: `close(hub.stop)` with no guard; in Go, closing an
already-closed channel panics. -/
def Hub.Stop (h : Hub) : Except GoPanic Hub :=
  if h.stopClosed then Except.error GoPanic.closeOfClosedChannel
  else Except.ok { h with stopClosed := true }

/-! Perceptor coordinator (the core file holding the Perceptor struct,
NewPerceptor, newPerceptorHelper and the polling loops). -/

/-- One second as a Go `time.Duration` (nanoseconds). -/
def timeSecond : Nat := 1000000000

/-- One minute as a Go `time.Duration` (nanoseconds). -/
def timeMinute : Nat := 60 * timeSecond

/-- Coordinator constant `checkHubForCompletedScansPause = 20 * time.Second`. -/
def checkHubForCompletedScansPause : Nat := 20 * timeSecond

/-- Coordinator constant `checkHubThrottle = 1 * time.Second`. -/
def checkHubThrottle : Nat := 1 * timeSecond

/-- Coordinator constant `checkForStalledScansPause = 1 * time.Minute`. -/
def checkForStalledScansPause : Nat := 1 * timeMinute

/-- Coordinator constant `stalledScanTimeout = 30 * time.Minute`. -/
def stalledScanTimeout : Nat := 30 * timeMinute

/-- An image as the completion-polling loop sees it; only its Sha reaches
the submitted action (HubProjectName is used for logging only). -/
structure Image where
  Sha : String
deriving DecidableEq, Repr

/-- The per-image record the stalled-scan detector inspects: its Sha and the
value of `timeInCurrentScanStatus()` (a duration in nanoseconds; the
ImageInfo struct is modelled from the spec, which gives it a Sha and a
timestamp of last state change from which this duration is derived). -/
structure ImageInfo where
  ImageSha : String
  timeInCurrentScanStatus : Nat
deriving DecidableEq, Repr

/-- The `HubImageScan` payload submitted by the polling loops: the image's
Sha and the fetched scan pointer (`none` for a nil scan; the scan payload
is opaque to the loop, stood for by a Nat). -/
structure HubImageScan where
  Sha : String
  Scan : Option Nat
deriving DecidableEq, Repr

/-- Actions the coordinator's loops send on the Perceptor's action channel. -/
inductive PerceptorAction where
  | requeueStalledScan (sha : String)
  | hubScanResults (scan : HubImageScan)
deriving DecidableEq, Repr

/-- One pass (after the 1-minute sleep) of the body of
`startCheckingForStalledScans`: for each ImageInfo in
`inProgressScanClientScans` whose `timeInCurrentScanStatus()` exceeds
`stalledScanTimeout`, send `requeueStalledScan{imageInfo.ImageSha}`. -/
def stalledScanPass : List ImageInfo → List PerceptorAction
  | [] => []
  | i :: rest =>
    if i.timeInCurrentScanStatus > stalledScanTimeout then
      PerceptorAction.requeueStalledScan i.ImageSha :: stalledScanPass rest
    else
      stalledScanPass rest

/-- The background goroutines `newPerceptorHelper` launches, in order: the
action-combining loop (step 2 in the source), the model-draining loop
(step 4), and `go perceptor.startCheckingForImagesInHub()` and
`go perceptor.startPollingHubForCompletedScans()` (step 7).  No other
goroutine is started by `newPerceptorHelper` or by `NewPerceptor`. -/
def newPerceptorHelperGoroutines : List String :=
  ["combineActions", "modelLoop",
   "startCheckingForImagesInHub", "startPollingHubForCompletedScans"]

/-- One pass (after the 20-second sleep) of the body of
`startPollingHubForCompletedScans`: iterate `inProgressHubScans`; for each
image call `hubClient.FetchScanFromImage`; on a non-nil error only log and
move on; otherwise (the scan may be nil) send
`hubScanResults{HubImageScan{Sha, Scan}}`.  `fetch` stands for the hub
client, returning either an error message or the (possibly nil) scan. -/
def pollForCompletedScansPass (fetch : Image → Except String (Option Nat)) :
    List Image → List HubImageScan
  | [] => []
  | image :: rest =>
    match fetch image with
    | Except.error _ => pollForCompletedScansPass fetch rest
    | Except.ok scan => { Sha := image.Sha, Scan := scan } :: pollForCompletedScansPass fetch rest

/-- The configuration NewPerceptor receives.
Modelled from the spec: the PerceptorConfig struct itself is outside the
embedded sources; per the spec the fields the core reads are `HubUser`,
`HubUserPassword`, `HubHost` and the concurrent-scan-limit. -/
structure PerceptorConfig where
  HubHost : String
  HubUser : String
  HubUserPassword : String
  ConcurrentScanLimit : Nat
deriving DecidableEq, Repr

/-- What the Perceptor construction fixes: the credentials and base URL
handed to `hub.NewFetcher`, and the `concurrentScanLimit` handed to
`NewModel` by `newPerceptorHelper`. -/
structure PerceptorInit where
  hubUser : String
  hubUserPassword : String
  hubBaseURL : String
  concurrentScanLimit : Nat
deriving DecidableEq, Repr

/-- The local constant `concurrentScanLimit := 2` in `newPerceptorHelper`. -/
def newPerceptorHelperScanLimit : Nat := 2

/-- `newPerceptorHelper`'s construction as far as the central model is
concerned: the model is built by `NewModel(concurrentScanLimit)` with the
local constant value. -/
def newPerceptorHelperInit (hubUser hubUserPassword hubBaseURL : String) : PerceptorInit :=
  { hubUser := hubUser
    hubUserPassword := hubUserPassword
    hubBaseURL := hubBaseURL
    concurrentScanLimit := newPerceptorHelperScanLimit }

/-- `NewPerceptor(cfg)`: builds the base URL `"https://" + cfg.HubHost`,
creates the fetcher from `cfg.HubUser` and `cfg.HubUserPassword`, and
delegates to `newPerceptorHelper` (which fixes the scan limit). -/
def NewPerceptor (cfg : PerceptorConfig) : PerceptorInit :=
  newPerceptorHelperInit cfg.HubUser cfg.HubUserPassword ("https://" ++ cfg.HubHost)

/-! HubManager (pkg/core/hubmanager.go). -/

/-- A hub client as the manager observes it: the scan names forwarded to it
by `StartScanClient` and `FinishScanClient`. -/
structure MHub where
  startScans : List String
  finishScans : List String
deriving DecidableEq, Repr

/-- The HubManager's state: the `hubs` map (as an association list in
insertion order; Go map keys are unique, which `create`'s existence check
maintains) and the URLs on which `Stop()` has been called. -/
structure HubManager where
  hubs : List (String × MHub)
  stoppedLog : List String
deriving DecidableEq, Repr

/-- The URLs currently keys of the manager's hub map. -/
def HubManager.hubURLKeys (hm : HubManager) : List String :=
  hm.hubs.map Prod.fst

/-- Look a hub client up by URL (Go map lookup `hm.hubs[hubURL]`). -/
def findHub : List (String × MHub) → String → Option MHub
  | [], _ => none
  | p :: rest, url => if p.1 = url then some p.2 else findHub rest url

/-- Replace the client stored under a URL (Go map assignment). -/
def updateHub (hubs : List (String × MHub)) (url : String) (f : MHub → MHub) :
    List (String × MHub) :=
  hubs.map (fun p => if p.1 = url then (p.1, f p.2) else p)

/-- hubmanager.go `create`: error when the URL already exists, otherwise
make a client with `hub.NewClient` and store it under the URL. -/
def HubManager.create (hm : HubManager) (hubURL : String) : HubManager × Option String :=
  if hubURL ∈ hm.hubURLKeys then
    (hm, some ("cannot create hub " ++ hubURL ++ ": already exists"))
  else
    ({ hm with hubs := hm.hubs ++ [(hubURL, { startScans := [], finishScans := [] })] }, none)

/-- hubmanager.go `SetHubs`: compute `hubsToCreate` (URLs of the argument
not currently in the map) from the pre-state; stop and delete every hub
whose URL is not in the argument; create each hub to create, logging (and
ignoring) creation errors.  The creation goroutine's work is placed after
the deletion loop, the completed state the spec's eventual guarantee is
about. -/
def HubManager.SetHubs (hm : HubManager) (hubURLs : List String) : HubManager :=
  let hubsToCreate := hubURLs.filter (fun u => u ∉ hm.hubURLKeys)
  let removed := hm.hubURLKeys.filter (fun u => u ∉ hubURLs)
  let hm1 : HubManager :=
    { hubs := hm.hubs.filter (fun p => p.1 ∈ hubURLs)
      stoppedLog := hm.stoppedLog ++ removed }
  hubsToCreate.foldl (fun acc u => (acc.create u).1) hm1

/-- hubmanager.go `StartScanClient`: `hub, ok := hm.hubs[hubURL]`; when
absent return the hub-not-found error, otherwise forward
`hub.StartScanClient(scanName)` and return nil. -/
def HubManager.StartScanClient (hm : HubManager) (hubURL scanName : String) :
    Except String HubManager :=
  match findHub hm.hubs hubURL with
  | none => Except.error ("hub " ++ hubURL ++ " not found")
  | some _ =>
    Except.ok { hm with
      hubs := updateHub hm.hubs hubURL (fun m => { m with startScans := m.startScans ++ [scanName] }) }

/-- hubmanager.go `FinishScanClient`: `hub, ok := hm.hubs[hubURL]`; when
absent return the hub-not-found error, otherwise forward
`hub.FinishScanClient(scanName)` and return nil. -/
def HubManager.FinishScanClient (hm : HubManager) (hubURL scanName : String) :
    Except String HubManager :=
  match findHub hm.hubs hubURL with
  | none => Except.error ("hub " ++ hubURL ++ " not found")
  | some _ =>
    Except.ok { hm with
      hubs := updateHub hm.hubs hubURL (fun m => { m with finishScans := m.finishScans ++ [scanName] }) }

/-! Theorems. -/

/-- C1 counterexample: on a freshly constructed hub, `StartScanClient` puts
no action message on the hub's action channel — it reaches the model as a
direct call, so the operation does not arrive as an action message on the
actor's action channel. -/
theorem hub_startScanClient_bypasses_action_channel :
    (Hub.StartScanClient NewHub "scan-1").pendingActions = [] ∧
    (Hub.StartScanClient NewHub "scan-1").modelCalls = [ModelCall.startScanClient "scan-1"] :=
  ⟨rfl, rfl⟩

/-- C1 (amended): `StartScanClient` and `FinishScanClient` leave the hub's
action channel untouched and forward a direct call to the hub model, while
the `Model` snapshot operation is the one sent as an action message
(`"getModel"`) on the hub's action channel without touching the model. -/
theorem hub_public_ops_dispatch (h : Hub) (s : String) (e : Option Nat) :
    (Hub.StartScanClient h s).pendingActions = h.pendingActions ∧
    (Hub.StartScanClient h s).modelCalls = h.modelCalls ++ [ModelCall.startScanClient s] ∧
    (Hub.FinishScanClient h s e).pendingActions = h.pendingActions ∧
    (Hub.FinishScanClient h s e).modelCalls = h.modelCalls ++ [ModelCall.finishScanClient s e] ∧
    (Hub.Model h).pendingActions = h.pendingActions ++ ["getModel"] ∧
    (Hub.Model h).modelCalls = h.modelCalls :=
  ⟨rfl, rfl, rfl, rfl, rfl, rfl⟩

/-- C3 counterexample: a configuration asking for a concurrent-scan limit of
5 still yields a Perceptor whose central model is built with limit 2. -/
theorem newPerceptor_ignores_config_scan_limit :
    (NewPerceptor { HubHost := "hub.example.com", HubUser := "u", HubUserPassword := "p",
                    ConcurrentScanLimit := 5 }).concurrentScanLimit = 2 ∧
    ({ HubHost := "hub.example.com", HubUser := "u", HubUserPassword := "p",
       ConcurrentScanLimit := 5 } : PerceptorConfig).ConcurrentScanLimit ≠ 2 :=
  ⟨rfl, by decide⟩

/-- C3 (amended): `NewPerceptor` reads `HubUser`, `HubUserPassword` and
`HubHost` from the configuration, but the concurrent-scan-client limit is
not taken from the configuration: `newPerceptorHelper` fixes it to the
constant 2 for every configuration. -/
theorem newPerceptor_reads_credentials_fixes_limit (cfg : PerceptorConfig) :
    (NewPerceptor cfg).hubUser = cfg.HubUser ∧
    (NewPerceptor cfg).hubUserPassword = cfg.HubUserPassword ∧
    (NewPerceptor cfg).hubBaseURL = "https://" ++ cfg.HubHost ∧
    (NewPerceptor cfg).concurrentScanLimit = 2 :=
  ⟨rfl, rfl, rfl, rfl⟩

/-- C9: `Hub.Stop` closes the stop channel unguarded: on a hub whose stop
channel is open a first `Stop` succeeds and closes it, and a second `Stop`
on the resulting hub panics with close-of-closed-channel. -/
theorem hub_stop_not_idempotent (h : Hub) (hopen : h.stopClosed = false) :
    Hub.Stop h = Except.ok { h with stopClosed := true } ∧
    Hub.Stop { h with stopClosed := true } = Except.error GoPanic.closeOfClosedChannel := by
  constructor
  · simp [Hub.Stop, hopen]
  · simp [Hub.Stop]

/-- C9 witness: the double-Stop panic at the concrete hub `NewHub`. -/
theorem hub_stop_not_idempotent_witness :
    NewHub.stopClosed = false ∧
    (Hub.Stop NewHub = Except.ok { NewHub with stopClosed := true } ∧
     Hub.Stop { NewHub with stopClosed := true } = Except.error GoPanic.closeOfClosedChannel) :=
  ⟨rfl, hub_stop_not_idempotent NewHub rfl⟩

/-- Appending a non-nil error below the bound is a plain append. -/
theorem recordErrorL_some_lt (errors : List HErr) (e : HErr)
    (hlt : errors.length < 1000) :
    recordErrorL (some e) errors = errors ++ [e] := by
  show (if (errors ++ [e]).length > 1000 then (errors ++ [e]).drop 500 else errors ++ [e])
    = errors ++ [e]
  rw [if_neg (by simp only [List.length_append, List.length_singleton]; omega)]

/-- Appending a non-nil error exactly at the bound trims to the last 501. -/
theorem recordErrorL_some_eq (errors : List HErr) (e : HErr)
    (heq : errors.length = 1000) :
    recordErrorL (some e) errors = (errors ++ [e]).drop 500 := by
  show (if (errors ++ [e]).length > 1000 then (errors ++ [e]).drop 500 else errors ++ [e])
    = (errors ++ [e]).drop 500
  rw [if_pos (by simp only [List.length_append, List.length_singleton]; omega)]

/-- A nil error leaves a ring within the bound unchanged. -/
theorem recordErrorL_none (errors : List HErr) (hle : errors.length ≤ 1000) :
    recordErrorL none errors = errors := by
  show (if errors.length > 1000 then errors.drop 500 else errors) = errors
  rw [if_neg (by omega)]

/-- Folding `recordError` over non-nil errors that keep the ring within the
bound appends them all. -/
theorem foldRecord_length (es : List Nat) (acc : List HErr)
    (hle : acc.length + es.length ≤ 1000) :
    (es.foldl (fun a k => recordErrorL (some (HErr.loginFailure k)) a) acc).length
      = acc.length + es.length := by
  induction es generalizing acc with
  | nil => simp
  | cons x xs ih =>
    simp only [List.foldl_cons]
    rw [recordErrorL_some_lt acc (HErr.loginFailure x) (by simp at hle; omega)]
    rw [ih (acc ++ [HErr.loginFailure x]) (by simp at hle ⊢; omega)]
    simp
    omega

/-- Folding the error-recording step over a singleton is one recording step. -/
theorem foldl_record_singleton (b : List HErr) (k : Nat) :
    [k].foldl (fun a j => recordErrorL (some (HErr.loginFailure j)) a) b
      = recordErrorL (some (HErr.loginFailure k)) b := rfl

/-- C4 counterexample: feeding 1001 non-nil errors into an initially empty
ring leaves 501 entries, not the 1000 most recent ones. -/
theorem recordError_trim_keeps_501 :
    ((List.range 1001).foldl (fun a k => recordErrorL (some (HErr.loginFailure k)) a) []).length = 501 ∧
    ((List.range 1001).foldl (fun a k => recordErrorL (some (HErr.loginFailure k)) a) []).length ≠ 1000 := by
  have h1001 : (1001 : Nat) = Nat.succ 1000 := rfl
  have hsplit : List.range 1001 = List.range 1000 ++ [1000] := by
    rw [h1001, List.range_succ]
  have hlen : ((List.range 1000).foldl
      (fun a k => recordErrorL (some (HErr.loginFailure k)) a) ([] : List HErr)).length = 1000 := by
    rw [foldRecord_length (List.range 1000) [] (by simp [List.length_range])]
    simp [List.length_range]
  have e1 : (List.range 1001).foldl
      (fun a k => recordErrorL (some (HErr.loginFailure k)) a) ([] : List HErr)
      = recordErrorL (some (HErr.loginFailure 1000))
          ((List.range 1000).foldl
            (fun a k => recordErrorL (some (HErr.loginFailure k)) a) ([] : List HErr)) := by
    rw [hsplit, List.foldl_append, foldl_record_singleton]
  have e2 := recordErrorL_some_eq
    ((List.range 1000).foldl
      (fun a k => recordErrorL (some (HErr.loginFailure k)) a) ([] : List HErr))
    (HErr.loginFailure 1000) hlen
  have e3 : ((((List.range 1000).foldl
      (fun a k => recordErrorL (some (HErr.loginFailure k)) a) ([] : List HErr))
        ++ [HErr.loginFailure 1000]).drop 500).length = 501 := by
    rw [List.length_drop, List.length_append, hlen]
    rfl
  constructor
  · rw [e1, e2]
    exact e3
  · rw [e1, e2, e3]
    omega

/-- C4 (amended): every non-nil error is appended to the ring; when the
append makes the ring exceed 1000 entries the oldest 500 are dropped,
retaining the most recent 501; a nil error leaves the ring unchanged; and a
ring of at most 1000 entries still has at most 1000 entries after any
`recordError` call. -/
theorem recordError_ring_policy (errors : List HErr) (e : HErr) :
    (errors.length < 1000 → recordErrorL (some e) errors = errors ++ [e]) ∧
    (errors.length = 1000 →
       recordErrorL (some e) errors = (errors ++ [e]).drop 500 ∧
       (recordErrorL (some e) errors).length = 501) ∧
    (errors.length ≤ 1000 → recordErrorL none errors = errors) ∧
    (errors.length ≤ 1000 → ∀ err : Option HErr, (recordErrorL err errors).length ≤ 1000) := by
  refine ⟨fun hlt => recordErrorL_some_lt errors e hlt,
          fun heq => ⟨recordErrorL_some_eq errors e heq, ?_⟩,
          fun hle => recordErrorL_none errors hle, fun hle err => ?_⟩
  · rw [recordErrorL_some_eq errors e heq]
    simp [List.length_drop, heq]
  · match err with
    | none => rw [recordErrorL_none errors hle]; exact hle
    | some e2 =>
      rcases Nat.lt_or_ge errors.length 1000 with hlt | hge
      · rw [recordErrorL_some_lt errors e2 hlt]
        simp
        omega
      · have heq : errors.length = 1000 := Nat.le_antisymm hle hge
        rw [recordErrorL_some_eq errors e2 heq]
        simp [List.length_drop, heq]

/-- C10: the didLogin handler changes state only on an actual Up/Down
transition: a nil-error login while already Up, or a failed login while
already Down, leaves the status and every timer untouched — the whole
effect is the error-ring update (which appends exactly the non-nil error
while the ring is below its bound, and is the identity for a nil error on a
ring within its bound). -/
theorem didLogin_frame (h : Hub) (e : Nat) :
    (h.status = ClientStatus.Up →
       didLogin none h = { h with errors := recordErrorL none h.errors }) ∧
    (h.status = ClientStatus.Down →
       didLogin (some e) h
         = { h with errors := recordErrorL (some (HErr.loginFailure e)) h.errors }) ∧
    (h.status = ClientStatus.Up → h.errors.length ≤ 1000 → didLogin none h = h) ∧
    (h.status = ClientStatus.Down → h.errors.length < 1000 →
       didLogin (some e) h = { h with errors := h.errors ++ [HErr.loginFailure e] }) := by
  have hnone : h.status = ClientStatus.Up →
      didLogin none h = { h with errors := recordErrorL none h.errors } := by
    intro hup
    simp [didLogin, Hub.recordError, hup]
  have hsome : h.status = ClientStatus.Down →
      didLogin (some e) h
        = { h with errors := recordErrorL (some (HErr.loginFailure e)) h.errors } := by
    intro hdown
    simp [didLogin, Hub.recordError, hdown]
  refine ⟨hnone, hsome, fun hup hle => ?_, fun hdown hlt => ?_⟩
  · rw [hnone hup, recordErrorL_none h.errors hle]
  · rw [hsome hdown, recordErrorL_some_lt h.errors (HErr.loginFailure e) hlt]

/-- C10 witness: a failed login on the fresh hub (already Down) only
appends the login error, changing no timer and not the status. -/
theorem didLogin_frame_witness :
    NewHub.status = ClientStatus.Down ∧ NewHub.errors.length < 1000 ∧
    didLogin (some 3) NewHub = { NewHub with errors := NewHub.errors ++ [HErr.loginFailure 3] } :=
  ⟨rfl, by decide, (didLogin_frame NewHub 3).2.2.2 rfl (by decide)⟩

/-- C5: a nil-error login result while the status is Down transitions the
hub Down to Up and resumes the four data timers, each with one immediate
fire, leaving the login and getMetrics timers alone; a non-nil login result
while the status is Up transitions Up to Down and pauses the four data
timers, leaving the login and getMetrics timers alone. -/
theorem didLogin_transitions (h : Hub) (e : Nat) :
    (h.status = ClientStatus.Down →
     h.checkScansForCompletionTimer.running = false →
     h.fetchScansTimer.running = false →
     h.fetchAllScansTimer.running = false →
     h.refreshScansTimer.running = false →
       ((didLogin none h).status = ClientStatus.Up ∧
        (didLogin none h).checkScansForCompletionTimer =
          { running := true, immediateFires := h.checkScansForCompletionTimer.immediateFires + 1 } ∧
        (didLogin none h).fetchScansTimer =
          { running := true, immediateFires := h.fetchScansTimer.immediateFires + 1 } ∧
        (didLogin none h).fetchAllScansTimer =
          { running := true, immediateFires := h.fetchAllScansTimer.immediateFires + 1 } ∧
        (didLogin none h).refreshScansTimer =
          { running := true, immediateFires := h.refreshScansTimer.immediateFires + 1 } ∧
        (didLogin none h).loginTimer = h.loginTimer ∧
        (didLogin none h).getMetricsTimer = h.getMetricsTimer)) ∧
    (h.status = ClientStatus.Up →
     h.checkScansForCompletionTimer.running = true →
     h.fetchScansTimer.running = true →
     h.fetchAllScansTimer.running = true →
     h.refreshScansTimer.running = true →
       ((didLogin (some e) h).status = ClientStatus.Down ∧
        (didLogin (some e) h).checkScansForCompletionTimer.running = false ∧
        (didLogin (some e) h).fetchScansTimer.running = false ∧
        (didLogin (some e) h).fetchAllScansTimer.running = false ∧
        (didLogin (some e) h).refreshScansTimer.running = false ∧
        (didLogin (some e) h).loginTimer = h.loginTimer ∧
        (didLogin (some e) h).getMetricsTimer = h.getMetricsTimer)) := by
  constructor
  · intro hst h1 h2 h3 h4
    simp [didLogin, Hub.recordError, Timer.resume, Timer.pause, hst, h1, h2, h3, h4]
  · intro hst h1 h2 h3 h4
    simp [didLogin, Hub.recordError, Timer.resume, Timer.pause, hst, h1, h2, h3, h4]

/-- C5 witness: the first successful login on the fresh hub brings the
status Up and resumes the checkScansForCompletion timer with one immediate
fire. -/
theorem didLogin_transitions_witness :
    NewHub.status = ClientStatus.Down ∧
    NewHub.checkScansForCompletionTimer.running = false ∧
    (didLogin none NewHub).status = ClientStatus.Up ∧
    (didLogin none NewHub).checkScansForCompletionTimer =
      { running := true, immediateFires := NewHub.checkScansForCompletionTimer.immediateFires + 1 } :=
  ⟨rfl, rfl, ((didLogin_transitions NewHub 0).1 rfl rfl rfl rfl rfl).1,
    ((didLogin_transitions NewHub 0).1 rfl rfl rfl rfl rfl).2.1⟩

/-- C2: the stalled-scan detector of the coordinator is correct as a
function — a pass emits `requeueStalledScan` exactly for the records held
in their state strictly longer than the 30-minute timeout, and the pause
between passes is 1 minute — but `newPerceptorHelper` never starts
`startCheckingForStalledScans`: it is not among the goroutines the
constructor launches, so no pass ever runs in a constructed Perceptor. -/
theorem stalledScanDetector_never_started :
    "startCheckingForStalledScans" ∉ newPerceptorHelperGoroutines ∧
    checkForStalledScansPause = 1 * timeMinute ∧
    stalledScanTimeout = 30 * timeMinute ∧
    stalledScanPass [{ ImageSha := "x", timeInCurrentScanStatus := 31 * timeMinute }]
      = [PerceptorAction.requeueStalledScan "x"] ∧
    stalledScanPass [{ ImageSha := "y", timeInCurrentScanStatus := 30 * timeMinute }] = [] := by
  refine ⟨by decide, rfl, rfl, ?_, ?_⟩
  · show (if 31 * timeMinute > stalledScanTimeout then
        [PerceptorAction.requeueStalledScan "x"] else []) = [PerceptorAction.requeueStalledScan "x"]
    rw [if_pos (by norm_num [timeMinute, timeSecond, stalledScanTimeout])]
  · show (if 30 * timeMinute > stalledScanTimeout then
        [PerceptorAction.requeueStalledScan "y"] else []) = []
    rw [if_neg (by norm_num [timeMinute, timeSecond, stalledScanTimeout])]

/-- C4 witness: the ring policy evaluated at a concrete one-element ring. -/
theorem recordError_ring_policy_witness :
    ([HErr.loginFailure 0] : List HErr).length < 1000 ∧
    recordErrorL (some (HErr.loginFailure 1)) [HErr.loginFailure 0]
      = [HErr.loginFailure 0, HErr.loginFailure 1] :=
  ⟨by decide, (recordError_ring_policy [HErr.loginFailure 0] (HErr.loginFailure 1)).1 (by decide)⟩

/-- A successful fetch of a listed image puts its submission in the pass. -/
theorem mem_pollPass_intro (fetch : Image → Except String (Option Nat))
    (l : List Image) (i : Image) (s : Option Nat) (hi : i ∈ l)
    (hf : fetch i = Except.ok s) :
    ({ Sha := i.Sha, Scan := s } : HubImageScan) ∈ pollForCompletedScansPass fetch l := by
  induction l with
  | nil => cases hi
  | cons a rest ih =>
    rcases List.mem_cons.mp hi with heq | hmem
    · subst heq
      simp [pollForCompletedScansPass, hf]
    · rcases hfa : fetch a with e | s2
      · simpa [pollForCompletedScansPass, hfa] using ih hmem
      · simp only [pollForCompletedScansPass, hfa, List.mem_cons]
        exact Or.inr (ih hmem)

/-- Every submission of a pass comes from a listed image whose fetch
succeeded with that scan. -/
theorem mem_pollPass_elim (fetch : Image → Except String (Option Nat))
    (l : List Image) (x : HubImageScan)
    (hx : x ∈ pollForCompletedScansPass fetch l) :
    ∃ i ∈ l, i.Sha = x.Sha ∧ fetch i = Except.ok x.Scan := by
  induction l with
  | nil => simp [pollForCompletedScansPass] at hx
  | cons a rest ih =>
    rcases hfa : fetch a with e | s2
    · rw [pollForCompletedScansPass, hfa] at hx
      obtain ⟨i, hi, hrest⟩ := ih hx
      exact ⟨i, List.mem_cons_of_mem a hi, hrest⟩
    · rw [pollForCompletedScansPass, hfa] at hx
      rcases List.mem_cons.mp hx with heq | hmem
      · refine ⟨a, List.mem_cons_self a rest, ?_, ?_⟩
        · rw [heq]
        · rw [hfa, heq]
      · obtain ⟨i, hi, hrest⟩ := ih hmem
        exact ⟨i, List.mem_cons_of_mem a hi, hrest⟩

/-- C7: in one pass of the completion-polling loop, a `hubScanResults`
submission carrying an image's Sha and a scan is made exactly when the
fetch of that image returned without error (the scan itself may be nil);
and a fetch error produces no submission for that image, the pass
continuing with the remaining images. -/
theorem pollingLoop_submits_iff_fetch_ok :
    (∀ (fetch : Image → Except String (Option Nat)) (images : List Image)
        (image : Image) (s : Option Nat), image ∈ images →
      (({ Sha := image.Sha, Scan := s } : HubImageScan) ∈ pollForCompletedScansPass fetch images
        ↔ fetch image = Except.ok s)) ∧
    (∀ (fetch : Image → Except String (Option Nat)) (image : Image) (err : String)
        (rest : List Image), fetch image = Except.error err →
      pollForCompletedScansPass fetch (image :: rest) = pollForCompletedScansPass fetch rest) := by
  constructor
  · intro fetch images image s himg
    constructor
    · intro hmem
      obtain ⟨i, hi, hsha, hf⟩ := mem_pollPass_elim fetch images _ hmem
      have hieq : i = image := by
        cases i
        cases image
        simpa using hsha
      rw [hieq] at hf
      exact hf
    · intro hok
      exact mem_pollPass_intro fetch images image s himg hok
  · intro fetch image err rest hferr
    rw [pollForCompletedScansPass, hferr]

/-- C7 witness: with a hub client that fetches image a successfully and
fails on image b, the pass over both submits for a. -/
theorem pollingLoop_submits_iff_fetch_ok_witness :
    ({ Sha := "a" } : Image) ∈ ([{ Sha := "a" }, { Sha := "b" }] : List Image) ∧
    ({ Sha := "a", Scan := some 7 } : HubImageScan) ∈
      pollForCompletedScansPass
        (fun i => if i.Sha = "a" then Except.ok (some 7) else Except.error "connection refused")
        [{ Sha := "a" }, { Sha := "b" }] :=
  ⟨by simp,
   (pollingLoop_submits_iff_fetch_ok.1
      (fun i => if i.Sha = "a" then Except.ok (some 7) else Except.error "connection refused")
      [{ Sha := "a" }, { Sha := "b" }] { Sha := "a" } (some 7) (by simp)).mpr (by simp)⟩

/-- A URL is absent from the hub map exactly when lookup finds nothing. -/
theorem findHub_eq_none_iff (l : List (String × MHub)) (url : String) :
    findHub l url = none ↔ url ∉ l.map Prod.fst := by
  induction l with
  | nil => simp [findHub]
  | cons p rest ih =>
    by_cases hp : p.1 = url
    · simp [findHub, hp]
    · simp [findHub, hp, ih, Ne.symm hp]

/-- Updating a hub under a URL is what lookup under that URL then sees. -/
theorem findHub_updateHub (l : List (String × MHub)) (url : String) (f : MHub → MHub) :
    findHub (updateHub l url f) url = (findHub l url).map f := by
  induction l with
  | nil => rfl
  | cons p rest ih =>
    by_cases hp : p.1 = url
    · simp only [updateHub, List.map_cons]
      rw [if_pos hp]
      simp [findHub, hp]
    · simp only [updateHub, List.map_cons]
      rw [if_neg hp]
      simp only [findHub, hp, if_false]
      simpa [updateHub] using ih

/-- Updating a hub in place does not change the key set. -/
theorem updateHub_keys (l : List (String × MHub)) (url : String) (f : MHub → MHub) :
    (updateHub l url f).map Prod.fst = l.map Prod.fst := by
  induction l with
  | nil => rfl
  | cons p rest ih =>
    by_cases hp : p.1 = url
    · simp [updateHub, hp] at ih ⊢
      exact ih
    · simp [updateHub, hp] at ih ⊢
      exact ih

/-- C8: `StartScanClient` and `FinishScanClient` on the HubManager return
the hub-not-found error exactly when the URL is not a key of the hub map;
when the hub is known they succeed, forwarding the scan name to that hub's
client and changing nothing else (same keys, same stop log). -/
theorem hubManager_routes_by_url (hm : HubManager) (hubURL scanName : String) :
    (hubURL ∉ hm.hubURLKeys →
       hm.StartScanClient hubURL scanName = Except.error ("hub " ++ hubURL ++ " not found") ∧
       hm.FinishScanClient hubURL scanName = Except.error ("hub " ++ hubURL ++ " not found")) ∧
    (hubURL ∈ hm.hubURLKeys →
       (∃ hm2, hm.StartScanClient hubURL scanName = Except.ok hm2 ∧
          hm2.hubURLKeys = hm.hubURLKeys ∧ hm2.stoppedLog = hm.stoppedLog ∧
          findHub hm2.hubs hubURL
            = (findHub hm.hubs hubURL).map
                (fun m => { m with startScans := m.startScans ++ [scanName] })) ∧
       (∃ hm2, hm.FinishScanClient hubURL scanName = Except.ok hm2 ∧
          hm2.hubURLKeys = hm.hubURLKeys ∧ hm2.stoppedLog = hm.stoppedLog ∧
          findHub hm2.hubs hubURL
            = (findHub hm.hubs hubURL).map
                (fun m => { m with finishScans := m.finishScans ++ [scanName] }))) := by
  constructor
  · intro hnot
    have hnone : findHub hm.hubs hubURL = none := by
      rw [findHub_eq_none_iff]
      simpa [HubManager.hubURLKeys] using hnot
    constructor
    · simp [HubManager.StartScanClient, hnone]
    · simp [HubManager.FinishScanClient, hnone]
  · intro hmem
    have hne : findHub hm.hubs hubURL ≠ none := by
      intro hn
      exact ((findHub_eq_none_iff hm.hubs hubURL).mp hn) (by simpa [HubManager.hubURLKeys] using hmem)
    obtain ⟨m, hmsome⟩ := Option.ne_none_iff_exists'.mp hne
    constructor
    · refine ⟨{ hm with hubs := (updateHub hm.hubs hubURL
          (fun m0 => { m0 with startScans := m0.startScans ++ [scanName] })) }, ?_, ?_, rfl, ?_⟩
      · simp [HubManager.StartScanClient, hmsome]
      · simp [HubManager.hubURLKeys, updateHub_keys]
      · simpa using findHub_updateHub hm.hubs hubURL _
    · refine ⟨{ hm with hubs := (updateHub hm.hubs hubURL
          (fun m0 => { m0 with finishScans := m0.finishScans ++ [scanName] })) }, ?_, ?_, rfl, ?_⟩
      · simp [HubManager.FinishScanClient, hmsome]
      · simp [HubManager.hubURLKeys, updateHub_keys]
      · simpa using findHub_updateHub hm.hubs hubURL _

/-- C8 witness: routing at a concrete one-hub manager — the known URL
succeeds, the unknown URL gets the not-found error. -/
theorem hubManager_routes_by_url_witness :
    "h1" ∈ (HubManager.mk [("h1", { startScans := [], finishScans := [] })] []).hubURLKeys ∧
    (∃ hm2, (HubManager.mk [("h1", { startScans := [], finishScans := [] })] []).StartScanClient
        "h1" "scan-a" = Except.ok hm2 ∧
      hm2.hubURLKeys = (HubManager.mk [("h1", { startScans := [], finishScans := [] })] []).hubURLKeys ∧
      hm2.stoppedLog = (HubManager.mk [("h1", { startScans := [], finishScans := [] })] []).stoppedLog ∧
      findHub hm2.hubs "h1"
        = (findHub (HubManager.mk [("h1", { startScans := [], finishScans := [] })] []).hubs "h1").map
            (fun m => { m with startScans := m.startScans ++ ["scan-a"] })) ∧
    "h9" ∉ (HubManager.mk [("h1", { startScans := [], finishScans := [] })] []).hubURLKeys ∧
    (HubManager.mk [("h1", { startScans := [], finishScans := [] })] []).StartScanClient "h9" "scan-a"
      = Except.error ("hub " ++ "h9" ++ " not found") :=
  ⟨by decide,
   ((hubManager_routes_by_url (HubManager.mk [("h1", { startScans := [], finishScans := [] })] [])
      "h1" "scan-a").2 (by decide)).1,
   by decide,
   ((hubManager_routes_by_url (HubManager.mk [("h1", { startScans := [], finishScans := [] })] [])
      "h9" "scan-a").1 (by decide)).1⟩

/-- A single create never touches the stop log. -/
theorem create_stoppedLog (acc : HubManager) (v : String) :
    ((acc.create v).1).stoppedLog = acc.stoppedLog := by
  by_cases hv : v ∈ acc.hubURLKeys
  · unfold HubManager.create
    rw [if_pos hv]
  · unfold HubManager.create
    rw [if_neg hv]

/-- A single create adds exactly the requested URL as a key (a no-op when
the URL already exists — the create then fails and is skipped). -/
theorem create_keys (acc : HubManager) (v u : String) :
    u ∈ ((acc.create v).1).hubURLKeys ↔ (u ∈ acc.hubURLKeys ∨ u = v) := by
  by_cases hv : v ∈ acc.hubURLKeys
  · unfold HubManager.create
    rw [if_pos hv]
    constructor
    · exact fun h => Or.inl h
    · rintro (h | h)
      · exact h
      · rw [h]
        exact hv
  · unfold HubManager.create
    rw [if_neg hv]
    simp [HubManager.hubURLKeys]

/-- Creating hubs never touches the stop log. -/
theorem createFold_stoppedLog (l : List String) (acc : HubManager) :
    (l.foldl (fun a v => (a.create v).1) acc).stoppedLog = acc.stoppedLog := by
  induction l generalizing acc with
  | nil => rfl
  | cons v xs ih =>
    rw [List.foldl_cons, ih, create_stoppedLog]

/-- After creating a list of hubs, a URL is a key exactly when it was one
before or is in the list (a creation failing on an existing URL is skipped). -/
theorem createFold_keys (l : List String) (acc : HubManager) (u : String) :
    u ∈ (l.foldl (fun a v => (a.create v).1) acc).hubURLKeys
      ↔ u ∈ acc.hubURLKeys ∨ u ∈ l := by
  induction l generalizing acc with
  | nil => simp
  | cons v xs ih =>
    rw [List.foldl_cons, ih, create_keys, List.mem_cons]
    tauto

/-- C6: `SetHubs(S)` stops and removes every previously known hub whose URL
is not in S, and once the (serialized) creation work has completed, the set
of hub-map keys is exactly the URLs of S. -/
theorem setHubs_reconciles (hm : HubManager) (hubURLs : List String) :
    (∀ u ∈ hm.hubURLKeys, u ∉ hubURLs →
        u ∈ (hm.SetHubs hubURLs).stoppedLog ∧ u ∉ (hm.SetHubs hubURLs).hubURLKeys) ∧
    (∀ u, u ∈ (hm.SetHubs hubURLs).hubURLKeys ↔ u ∈ hubURLs) := by
  have hkeys : ∀ u, u ∈ (hm.SetHubs hubURLs).hubURLKeys ↔ u ∈ hubURLs := by
    intro u
    unfold HubManager.SetHubs
    rw [createFold_keys]
    constructor
    · rintro (h | h)
      · simp only [HubManager.hubURLKeys, List.mem_map] at h
        obtain ⟨p, hp, hpu⟩ := h
        rw [List.mem_filter] at hp
        rw [← hpu]
        simpa using hp.2
      · rw [List.mem_filter] at h
        exact h.1
    · intro h
      by_cases hk : u ∈ hm.hubURLKeys
      · left
        simp only [HubManager.hubURLKeys, List.mem_map] at hk ⊢
        obtain ⟨p, hp, hpu⟩ := hk
        refine ⟨p, ?_, hpu⟩
        rw [List.mem_filter]
        exact ⟨hp, by simpa [hpu] using h⟩
      · right
        rw [List.mem_filter]
        exact ⟨h, by simpa using hk⟩
  refine ⟨fun u hu hnot => ⟨?_, fun hmem => hnot ((hkeys u).mp hmem)⟩, hkeys⟩
  unfold HubManager.SetHubs
  rw [createFold_stoppedLog]
  simp only [List.mem_append]
  right
  rw [List.mem_filter]
  exact ⟨hu, by simpa using hnot⟩

/-- C6 witness: setting the hub list of a manager knowing only h1 to the
single URL h2 stops h1, removes it, and makes h2 the only live hub. -/
theorem setHubs_reconciles_witness :
    "h1" ∈ (HubManager.mk [("h1", MHub.mk [] [])] []).hubURLKeys ∧
    "h1" ∈ ((HubManager.mk [("h1", MHub.mk [] [])] []).SetHubs ["h2"]).stoppedLog ∧
    "h1" ∉ ((HubManager.mk [("h1", MHub.mk [] [])] []).SetHubs ["h2"]).hubURLKeys ∧
    "h2" ∈ ((HubManager.mk [("h1", MHub.mk [] [])] []).SetHubs ["h2"]).hubURLKeys :=
  ⟨by decide,
   ((setHubs_reconciles (HubManager.mk [("h1", MHub.mk [] [])] []) ["h2"]).1
      "h1" (by decide) (by decide)).1,
   ((setHubs_reconciles (HubManager.mk [("h1", MHub.mk [] [])] []) ["h2"]).1
      "h1" (by decide) (by decide)).2,
   ((setHubs_reconciles (HubManager.mk [("h1", MHub.mk [] [])] []) ["h2"]).2 "h2").mpr
      (by decide)⟩
